import Mathlib

/-!
Verification of the learning-mode-agent backend against its specification.

The Python services (`app/services/*.py`) and routers (`app/routers/*.py`)
are shallowly embedded as pure Lean functions over an explicit database
state `DB`.  SQLAlchemy queries become `List` operations:
`scalar_one_or_none` is `List.find?`, `scalars().all()` with a `where`
clause is `List.filter`, and `order_by` is `List.insertionSort` with the
corresponding comparison.  Timestamps are natural numbers; `datetime.now`
becomes an explicit `now : Nat` argument.  The external collaborators
(password hashing from `app/utils/security.py`, the SMTP mailer, the LLM
runner) are parameters: a hash function `hash : String → String`, a flag
`mailerOk : Bool`, and an `Option` carrying the LLM output.  Exceptions
become `Except` values; a database rollback is modelled by returning the
unchanged state.  Surrogate integer primary keys and timestamp columns
that no verified property reads (e.g. `User.created_at`, token
`created_at`) are omitted from the records.
-/

namespace LMA

/-- `app/models/models.py` `User` (`users` table): unique username/email,
hashed password, verification flag. -/
structure User where
  id : Nat
  username : String
  email : String
  password : String
  is_verified : Bool
  deriving DecidableEq

/-- `app/models/models.py` `UserSession` (`sessions` table). -/
structure UserSession where
  id : Nat
  user_id : Nat
  agent_type : Option String
  created_at : Nat
  deriving DecidableEq

/-- `app/models/models.py` `Thread` (`threads` table). -/
structure Thread where
  id : Nat
  session_id : Nat
  title : Option String
  created_at : Nat
  deriving DecidableEq

/-- `app/models/models.py` `Message` (`messages` table). -/
structure Message where
  id : Nat
  thread_id : Nat
  role : String
  content : String
  created_at : Nat
  deriving DecidableEq

/-- Shared shape of `EmailVerificationToken` and `PasswordResetToken`:
random token string, owning user, expiry, nullable used timestamp. -/
structure TokenRec where
  user_id : Nat
  token : String
  expires_at : Nat
  used_at : Option Nat
  deriving DecidableEq

/-- The relational store: the four entity tables plus the two token
ledgers. -/
structure DB where
  users : List User
  sessions : List UserSession
  threads : List Thread
  messages : List Message
  verification_tokens : List TokenRec
  reset_tokens : List TokenRec
  deriving DecidableEq

def emptyDB : DB := ⟨[], [], [], [], [], []⟩

/-- The exception classes of `app/services/user_service.py`. -/
inductive UserServiceError where
  | userAlreadyExists
  | userNotFound
  | invalidCredentials
  deriving DecidableEq

/-- The exception classes of `app/services/session_service.py`. -/
inductive SessionServiceError where
  | sessionNotFound
  | sessionAccessDenied
  deriving DecidableEq

/-- The exception classes of `app/services/thread_service.py`.
`internalError` stands for an exception escaping the service layer (the
`thread.session is None` case, impossible under the non-null foreign
key). -/
inductive ThreadServiceError where
  | threadNotFound
  | threadAccessDenied
  | internalError
  deriving DecidableEq

/-- `VerificationTokenError` of `app/services/email_service.py`. -/
inductive VerificationError where
  | verificationTokenError
  deriving DecidableEq

/-- `InvalidResetTokenError` of `app/services/password_reset_service.py`. -/
inductive ResetError where
  | invalidResetTokenError
  deriving DecidableEq

/-- `UserService.register_user`: checks username then email for an exact
(case-sensitive) collision, hashes the password, inserts, commits.  The
commit outcome is the parameter `commitOk`: `False` is the
`IntegrityError` branch, which rolls back and raises
`UserAlreadyExistsError`. -/
def register_user (hash : String → String) (commitOk : Bool) (db : DB)
    (username email password : String) (newId : Nat) :
    Except UserServiceError User × DB :=
  match db.users.find? (fun u => u.username == username) with
  | some _ => (.error .userAlreadyExists, db)
  | none =>
    match db.users.find? (fun u => u.email == email) with
    | some _ => (.error .userAlreadyExists, db)
    | none =>
      let new_user : User :=
        { id := newId, username := username, email := email,
          password := hash password, is_verified := false }
      if commitOk then
        (.ok new_user, { db with users := db.users ++ [new_user] })
      else
        (.error .userAlreadyExists, db)

/-- `UserService.authenticate_user`: user lookup by username, password
verification (`verify` stands for `verify_password` of
`app/utils/security.py`), and the optional
`settings.EMAIL_VERIFICATION_REQUIRED` check; all three failures raise
`InvalidCredentialsError`. -/
def authenticate_user (verify : String → String → Bool)
    (emailVerificationRequired : Bool) (db : DB)
    (username password : String) : Except UserServiceError User :=
  match db.users.find? (fun u => u.username == username) with
  | none => .error .invalidCredentials
  | some user =>
    if ! verify password user.password then
      .error .invalidCredentials
    else if emailVerificationRequired && ! user.is_verified then
      .error .invalidCredentials
    else
      .ok user

/-- `UserService.get_user_by_email`. -/
def get_user_by_email (db : DB) (email : String) : Except UserServiceError User :=
  match db.users.find? (fun u => u.email == email) with
  | none => .error .userNotFound
  | some user => .ok user

/-- `SessionService.get_session_by_id`: not-found check, then the
ownership check when a `user_id` is supplied. -/
def get_session_by_id (db : DB) (session_id : Nat) (user_id : Option Nat) :
    Except SessionServiceError UserSession :=
  match db.sessions.find? (fun s => s.id == session_id) with
  | none => .error .sessionNotFound
  | some s =>
    match user_id with
    | some uid => if s.user_id ≠ uid then .error .sessionAccessDenied else .ok s
    | none => .ok s

/-- Newest-first ordering used by `order_by(created_at.desc())` on
sessions. -/
def sessionDescOrder (a b : UserSession) : Prop := b.created_at ≤ a.created_at

instance : DecidableRel sessionDescOrder := fun _ _ => Nat.decLe _ _

instance : IsTotal UserSession sessionDescOrder := ⟨fun a b => Nat.le_total b.created_at a.created_at⟩

instance : IsTrans UserSession sessionDescOrder := ⟨fun _ _ _ h1 h2 => Nat.le_trans h2 h1⟩

/-- Newest-first ordering used by `order_by(created_at.desc())` on
threads. -/
def threadDescOrder (a b : Thread) : Prop := b.created_at ≤ a.created_at

instance : DecidableRel threadDescOrder := fun _ _ => Nat.decLe _ _

instance : IsTotal Thread threadDescOrder := ⟨fun a b => Nat.le_total b.created_at a.created_at⟩

instance : IsTrans Thread threadDescOrder := ⟨fun _ _ _ h1 h2 => Nat.le_trans h2 h1⟩

/-- Chronological ordering used by `order_by(created_at.asc())` on
messages. -/
def messageAscOrder (a b : Message) : Prop := a.created_at ≤ b.created_at

instance : DecidableRel messageAscOrder := fun _ _ => Nat.decLe _ _

instance : IsTotal Message messageAscOrder := ⟨fun a b => Nat.le_total a.created_at b.created_at⟩

instance : IsTrans Message messageAscOrder := ⟨fun _ _ _ h1 h2 => Nat.le_trans h1 h2⟩

/-- `SessionService.list_sessions_for_user`: `WHERE user_id = ...
ORDER BY created_at DESC`. -/
def list_sessions_for_user (db : DB) (user_id : Nat) : List UserSession :=
  List.insertionSort sessionDescOrder
    (db.sessions.filter (fun s => s.user_id == user_id))

/-- `ThreadService.list_threads_for_session`: `WHERE session_id = ...
ORDER BY created_at DESC`. -/
def list_threads_for_session (db : DB) (session_id : Nat) : List Thread :=
  List.insertionSort threadDescOrder
    (db.threads.filter (fun t => t.session_id == session_id))

/-- `MessageService.get_messages_for_thread`: `WHERE thread_id = ...
ORDER BY created_at ASC`. -/
def get_messages_for_thread (db : DB) (thread_id : Nat) : List Message :=
  List.insertionSort messageAscOrder
    (db.messages.filter (fun m => m.thread_id == thread_id))

/-- `ThreadService.verify_thread_ownership`: fetch the thread with its
session and compare `session.user_id` with the requesting user. -/
def verify_thread_ownership (db : DB) (thread_id user_id : Nat) :
    Except ThreadServiceError Thread :=
  match db.threads.find? (fun t => t.id == thread_id) with
  | none => .error .threadNotFound
  | some thread =>
    match db.sessions.find? (fun s => s.id == thread.session_id) with
    | none => .error .internalError
    | some s =>
      if s.user_id ≠ user_id then .error .threadAccessDenied
      else .ok thread

/-- Marks the first ledger record with the given token string as used:
the effect of the ORM fetching the row by its unique `token` column and
setting `used_at`. -/
def markTokenUsed : List TokenRec → String → Nat → List TokenRec
  | [], _, _ => []
  | t :: ts, tok, now =>
    if t.token == tok then { t with used_at := some now } :: ts
    else t :: markTokenUsed ts tok now

/-- First step of `PasswordResetService.generate_reset_token`: set
`used_at = now` on every unused token of the user. -/
def mark_unused_tokens_used (user_id now : Nat) (l : List TokenRec) :
    List TokenRec :=
  l.map (fun t =>
    if t.user_id == user_id && t.used_at == none then
      { t with used_at := some now }
    else t)

/-- Effect of `PasswordResetService.generate_reset_token` on the reset
ledger: invalidate the existing unused tokens of the user, then insert a
fresh token expiring `expireH` hours from `now`, all in one commit. -/
def generate_reset_token_ledger (l : List TokenRec) (user_id : Nat)
    (tok : String) (now expireH : Nat) : List TokenRec :=
  mark_unused_tokens_used user_id now l ++
    [{ user_id := user_id, token := tok, expires_at := now + expireH,
       used_at := none }]

/-- Effect of `PasswordResetService.reset_password` on the reset ledger:
when the token verifies, its row is marked used; otherwise the
transaction leaves the ledger unchanged. -/
def reset_password_ledger (l : List TokenRec) (tok : String) (now : Nat) :
    List TokenRec :=
  match l.find? (fun t => t.token == tok) with
  | none => l
  | some rt =>
    if rt.expires_at < now || rt.used_at.isSome then l
    else markTokenUsed l tok now

/-- Effect of `delete_expired_tokens` on a ledger: delete every record
whose expiry has passed. -/
def delete_expired_tokens_ledger (l : List TokenRec) (now : Nat) :
    List TokenRec :=
  l.filter (fun t => ! (t.expires_at < now))

/-- `EmailService.verify_email_token`: look the token up, reject it when
absent, expired (`expires_at < now`) or already used, then flip the
owning user's `is_verified` flag and mark the token used in the same
transaction. -/
def verify_email_token (db : DB) (tok : String) (now : Nat) :
    Except VerificationError (User × DB) :=
  match db.verification_tokens.find? (fun t => t.token == tok) with
  | none => .error .verificationTokenError
  | some vt =>
    if vt.expires_at < now then .error .verificationTokenError
    else if vt.used_at.isSome then .error .verificationTokenError
    else
      match db.users.find? (fun u => u.id == vt.user_id) with
      | none => .error .verificationTokenError
      | some user =>
        let user' := { user with is_verified := true }
        .ok (user',
          { db with
            users := db.users.map (fun x => if x.id == user.id then user' else x),
            verification_tokens := markTokenUsed db.verification_tokens tok now })

/-- `PasswordResetService.verify_reset_token`: the read-only validity
check with the same absent / expired / used rules. -/
def verify_reset_token (db : DB) (tok : String) (now : Nat) :
    Except ResetError TokenRec :=
  match db.reset_tokens.find? (fun t => t.token == tok) with
  | none => .error .invalidResetTokenError
  | some rt =>
    if rt.expires_at < now then .error .invalidResetTokenError
    else if rt.used_at.isSome then .error .invalidResetTokenError
    else .ok rt

/-- `PasswordResetService.reset_password`: verify the token, look the
user up, store the new password hash and mark the token used in one
commit. -/
def reset_password (hash : String → String) (db : DB)
    (tok new_password : String) (now : Nat) :
    Except ResetError (User × DB) :=
  match verify_reset_token db tok now with
  | .error e => .error e
  | .ok rt =>
    match db.users.find? (fun u => u.id == rt.user_id) with
    | none => .error .invalidResetTokenError
    | some user =>
      let user' := { user with password := hash new_password }
      .ok (user',
        { db with
          users := db.users.map (fun x => if x.id == user.id then user' else x),
          reset_tokens := markTokenUsed db.reset_tokens tok now })

/-- Shape of an HTTP response as seen by a caller probing for account
enumeration: a success body versus an error status. -/
inductive RouteResponse where
  | success
  | failure (status : Nat)
  deriving DecidableEq

/-- `POST /auth/forgot-password` (`app/routers/auth.py` plus
`PasswordResetService.request_password_reset`): an unknown email is
silently accepted; a known email gets a fresh reset token committed to
the ledger and a reset mail.  A mailer failure surfaces as 500 — after
the token commit. -/
def forgot_password (mailerOk : Bool) (db : DB) (email : String)
    (freshTok : String) (now expireH : Nat) : RouteResponse × DB :=
  match db.users.find? (fun u => u.email == email) with
  | none => (.success, db)
  | some user =>
    let db' := { db with
      reset_tokens :=
        generate_reset_token_ledger db.reset_tokens user.id freshTok now expireH }
    if mailerOk then (.success, db') else (.failure 500, db')

/-- `POST /auth/resend-verification` (`app/routers/auth.py`): an unknown
email returns the non-revealing success message; a verified user hits
the 400 `HTTPException`, which the handler's own blanket `except
Exception` intercepts and re-raises as a 500; an unverified user gets a
fresh verification token committed and mailed (mailer failure → 500,
after the commit). -/
def resend_verification_email (mailerOk : Bool) (db : DB) (email : String)
    (freshTok : String) (now expireH : Nat) : RouteResponse × DB :=
  match db.users.find? (fun u => u.email == email) with
  | none => (.success, db)
  | some user =>
    if user.is_verified then (.failure 500, db)
    else
      let db' := { db with
        verification_tokens := db.verification_tokens ++
          [{ user_id := user.id, token := freshTok,
             expires_at := now + expireH, used_at := none }] }
      if mailerOk then (.success, db') else (.failure 500, db')

/-- Errors a handler in `app/routers/messages.py` can translate to. -/
inductive HttpError where
  | notFound
  | forbidden
  | serverError
  deriving DecidableEq

/-- `get_thread_history` in
`app/routers/messages.py`: fetches the thread (404 when absent, with
`load_session=True`) and then returns the thread's messages.  The
handler never compares `thread.session.user_id` with the requesting
user. -/
def get_thread_history (db : DB) (thread_id current_user_id : Nat) :
    Except HttpError (List Message) :=
  match db.threads.find? (fun t => t.id == thread_id) with
  | none => .error .notFound
  | some _ => .ok (get_messages_for_thread db thread_id)

/-- Entry of the LLM conversation context built by
`MessageService.get_conversation_context`. -/
structure ChatTurn where
  role : String
  content : String
  deriving DecidableEq

/-- `MessageService.get_conversation_context`: the chronological message
list, truncated by the Python slice `messages[-limit:]` when a limit is
given and the list is longer.  For `limit = 0` the slice `[-0:]` is
`[0:]` and keeps the whole list. -/
def get_conversation_context (db : DB) (thread_id : Nat)
    (limit : Option Nat) : List ChatTurn :=
  let messages := get_messages_for_thread db thread_id
  let messages :=
    match limit with
    | some l =>
      if messages.length > l then
        if l == 0 then messages else messages.drop (messages.length - l)
      else messages
    | none => messages
  messages.map (fun m => { role := m.role, content := m.content })

/-- Python `str.strip()` on a character list. -/
def stripChars (l : List Char) : List Char :=
  ((l.dropWhile Char.isWhitespace).reverse.dropWhile Char.isWhitespace).reverse

/-- The cleanup in `generate_thread_name`
(`app/routers/messages.py`): strip whitespace, then delete every double
(code 34) and single (code 39) quote, as the two `replace` calls do. -/
def cleanedTitle (out : List Char) : List Char :=
  (stripChars out).filter (fun c => ! (c.toNat == 34 || c.toNat == 39))

/-- Python `str.split()`: whitespace-separated words, never empty. -/
def wordsAux (cur : List Char) : List Char → List (List Char)
  | [] => if cur.isEmpty then [] else [cur.reverse]
  | c :: cs =>
    if c.isWhitespace then
      if cur.isEmpty then wordsAux [] cs else cur.reverse :: wordsAux [] cs
    else wordsAux (c :: cur) cs

def wordsOf (l : List Char) : List (List Char) := wordsAux [] l

/-- Python `" ".join(words)`. -/
def joinSpace : List (List Char) → List Char
  | [] => []
  | [w] => w
  | w :: ws => w ++ ' ' :: joinSpace ws

/-- The fallback name of `generate_thread_name` before truncation:
`" ".join(first_message.split()[:5])`. -/
def fallbackJoined (first_message : List Char) : List Char :=
  joinSpace ((wordsOf first_message).take 5)

def dots : List Char := ['.', '.', '.']

def newConversationName : List Char := "New Conversation".data

/-- `generate_thread_name` in `app/routers/messages.py`.  `llm` is the
external title generator: `some out` is `str(result.final_output)`,
`none` the exception branch.  On success the title is stripped,
quote-cleaned, and cut to its first 30 characters plus three dots when
longer than 50; on failure the first five words of the message are
joined, truncated to 47 characters plus three dots when longer than 50,
and replaced by the default when empty. -/
def generate_thread_name (llm : Option (List Char))
    (first_message : List Char) : List Char :=
  match llm with
  | some out =>
    let thread_name := cleanedTitle out
    if thread_name.length > 50 then thread_name.take 30 ++ dots
    else thread_name
  | none =>
    let fallback_name := fallbackJoined first_message
    let fallback_name :=
      if fallback_name.length > 50 then fallback_name.take 47 ++ dots
      else fallback_name
    if fallback_name.isEmpty then newConversationName else fallback_name

/-- Number of reset tokens of a user with `used_at` still null. -/
def unusedTokenCount (l : List TokenRec) (user_id : Nat) : Nat :=
  l.countP (fun t => t.user_id == user_id && t.used_at == none)

/-- Number of live (unused and unexpired) reset tokens of a user at time
`now`. -/
def liveTokenCount (l : List TokenRec) (user_id now : Nat) : Nat :=
  l.countP (fun t =>
    t.user_id == user_id && t.used_at == none && ! (t.expires_at < now))

/-- Reset-ledger states reachable through the operations of
`app/services/password_reset_service.py`, starting from an empty table. -/
inductive ReachableResetLedger : List TokenRec → Prop where
  | init : ReachableResetLedger []
  | issue (uid : Nat) (tok : String) (now expireH : Nat) {l : List TokenRec} :
      ReachableResetLedger l →
      ReachableResetLedger (generate_reset_token_ledger l uid tok now expireH)
  | consume (tok : String) (now : Nat) {l : List TokenRec} :
      ReachableResetLedger l →
      ReachableResetLedger (reset_password_ledger l tok now)
  | purge (now : Nat) {l : List TokenRec} :
      ReachableResetLedger l →
      ReachableResetLedger (delete_expired_tokens_ledger l now)

theorem someBeqNone (n : Nat) : ((some n : Option Nat) == none) = false := rfl

theorem unusedTokenCount_mark_unused_self (uid now : Nat)
    (l : List TokenRec) :
    unusedTokenCount (mark_unused_tokens_used uid now l) uid = 0 := by
  induction l with
  | nil => rfl
  | cons t ts ih =>
    unfold unusedTokenCount mark_unused_tokens_used at *
    rw [List.map_cons, List.countP_cons, ih, Nat.zero_add]
    by_cases h : (t.user_id == uid && t.used_at == none) = true
    · simp [h, someBeqNone]
    · simp [h]

theorem unusedTokenCount_mark_unused_other (uid v now : Nat)
    (l : List TokenRec) (hne : v ≠ uid) :
    unusedTokenCount (mark_unused_tokens_used uid now l) v =
      unusedTokenCount l v := by
  induction l with
  | nil => rfl
  | cons t ts ih =>
    unfold unusedTokenCount mark_unused_tokens_used at *
    rw [List.map_cons, List.countP_cons, List.countP_cons, ih]
    by_cases h : (t.user_id == uid && t.used_at == none) = true
    · have huid : t.user_id = uid := by
        have h1 := (Bool.and_eq_true _ _).mp h
        exact beq_iff_eq.mp h1.1
      have hv : (t.user_id == v) = false := by
        apply beq_eq_false_iff_ne.mpr
        rw [huid]; exact fun hc => hne hc.symm
      simp [h, hv]
    · simp [h]

theorem unusedTokenCount_markTokenUsed_le (l : List TokenRec)
    (tok : String) (now v : Nat) :
    unusedTokenCount (markTokenUsed l tok now) v ≤ unusedTokenCount l v := by
  induction l with
  | nil => exact Nat.le_refl _
  | cons t ts ih =>
    unfold unusedTokenCount at *
    simp only [markTokenUsed]
    by_cases h : (t.token == tok) = true
    · rw [if_pos h, List.countP_cons, List.countP_cons]
      refine Nat.add_le_add (Nat.le_refl _) ?_
      have hm : (({ t with used_at := some now } : TokenRec).user_id == v &&
          ({ t with used_at := some now } : TokenRec).used_at == none) = false := by
        simp [someBeqNone]
      simp [hm]
    · rw [if_neg h, List.countP_cons, List.countP_cons]
      exact Nat.add_le_add ih (Nat.le_refl _)

theorem unusedTokenCount_issue_self (l : List TokenRec) (uid : Nat)
    (tok : String) (now expireH : Nat) :
    unusedTokenCount (generate_reset_token_ledger l uid tok now expireH) uid
      = 1 := by
  unfold generate_reset_token_ledger unusedTokenCount
  rw [List.countP_append]
  have h0 := unusedTokenCount_mark_unused_self uid now l
  unfold unusedTokenCount at h0
  rw [h0]
  simp

theorem unusedTokenCount_issue_other (l : List TokenRec) (uid v : Nat)
    (tok : String) (now expireH : Nat) (hne : v ≠ uid) :
    unusedTokenCount (generate_reset_token_ledger l uid tok now expireH) v
      = unusedTokenCount l v := by
  unfold generate_reset_token_ledger unusedTokenCount
  rw [List.countP_append]
  have h0 := unusedTokenCount_mark_unused_other uid v now l hne
  unfold unusedTokenCount at h0
  rw [h0]
  have huv : (uid == v) = false :=
    beq_eq_false_iff_ne.mpr (fun hc => hne hc.symm)
  simp [huv]

theorem unusedTokenCount_invariant {l : List TokenRec}
    (h : ReachableResetLedger l) (v : Nat) : unusedTokenCount l v ≤ 1 := by
  induction h with
  | init => exact Nat.zero_le _
  | issue uid tok now expireH _ ih =>
    by_cases hv : v = uid
    · subst hv; exact Nat.le_of_eq (unusedTokenCount_issue_self _ _ _ _ _)
    · rw [unusedTokenCount_issue_other _ _ _ _ _ _ hv]; exact ih
  | @consume tok now l' _ ih =>
    unfold reset_password_ledger
    cases hf : List.find? (fun t => t.token == tok) l' with
    | none => exact ih
    | some rt =>
      by_cases hc : (rt.expires_at < now || rt.used_at.isSome) = true
      · simp only [hc, if_true]; exact ih
      · simp only [hc, if_false]
        exact Nat.le_trans (unusedTokenCount_markTokenUsed_le _ _ _ _) ih
  | purge now _ ih =>
    unfold delete_expired_tokens_ledger unusedTokenCount at *
    exact Nat.le_trans ((List.filter_sublist _).countP_le _) ih

theorem liveTokenCount_le_unused (l : List TokenRec) (v now : Nat) :
    liveTokenCount l v now ≤ unusedTokenCount l v := by
  unfold liveTokenCount unusedTokenCount
  apply List.countP_mono_left
  intro t _ h
  have h1 := (Bool.and_eq_true _ _).mp h
  exact h1.1

theorem mem_issue_marked (l : List TokenRec) (uid : Nat) (tok : String)
    (now expireH : Nat) (t : TokenRec) (hmem : t ∈ l)
    (huid : t.user_id = uid) (hunused : t.used_at = none) :
    ({ t with used_at := some now } : TokenRec) ∈
      generate_reset_token_ledger l uid tok now expireH := by
  unfold generate_reset_token_ledger mark_unused_tokens_used
  apply List.mem_append_left
  have hcond : (t.user_id == uid && t.used_at == none) = true := by
    rw [beq_iff_eq.mpr huid, hunused]
    rfl
  have := List.mem_map_of_mem
    (fun t : TokenRec =>
      if (t.user_id == uid && t.used_at == none) = true then
        { t with used_at := some now } else t) hmem
  simpa [hcond] using this

/-- C4: `generate_reset_token` first marks every previously unused reset
token of the user as used at the current time, so immediately after an
issue the user has at most one unused reset token, and every ledger
state reachable through issue / consume / purge has at most one live
(unused and unexpired) reset token per user. -/
theorem reset_token_single_live_invariant :
    (∀ (l : List TokenRec) (uid : Nat) (tok : String) (now expireH : Nat)
        (t : TokenRec), t ∈ l → t.user_id = uid → t.used_at = none →
        ({ t with used_at := some now } : TokenRec) ∈
          generate_reset_token_ledger l uid tok now expireH)
    ∧ (∀ (l : List TokenRec) (uid : Nat) (tok : String) (now expireH : Nat),
        unusedTokenCount (generate_reset_token_ledger l uid tok now expireH)
          uid ≤ 1)
    ∧ (∀ (l : List TokenRec), ReachableResetLedger l → ∀ (uid now : Nat),
        unusedTokenCount l uid ≤ 1 ∧ liveTokenCount l uid now ≤ 1) := by
  refine ⟨mem_issue_marked, ?_, ?_⟩
  · intro l uid tok now expireH
    exact Nat.le_of_eq (unusedTokenCount_issue_self l uid tok now expireH)
  · intro l hreach uid now
    have h1 := unusedTokenCount_invariant hreach uid
    exact ⟨h1, Nat.le_trans (liveTokenCount_le_unused l uid now) h1⟩

/-- Closed instance of `reset_token_single_live_invariant`: issuing on a
one-token ledger marks the old token used and the reachable-state bound
holds for the resulting ledger. -/
theorem reset_token_single_live_invariant_witness :
    (({ user_id := 1, token := "old", expires_at := 9, used_at := some 5 } :
        TokenRec) ∈
      generate_reset_token_ledger
        [{ user_id := 1, token := "old", expires_at := 9, used_at := none }]
        1 "tk" 5 1)
    ∧ unusedTokenCount (generate_reset_token_ledger [] 1 "tk" 0 1) 1 ≤ 1
    ∧ liveTokenCount (generate_reset_token_ledger [] 1 "tk" 0 1) 1 0 ≤ 1 := by
  refine ⟨?_, ?_, ?_⟩
  · exact reset_token_single_live_invariant.1
      [{ user_id := 1, token := "old", expires_at := 9, used_at := none }]
      1 "tk" 5 1
      { user_id := 1, token := "old", expires_at := 9, used_at := none }
      (List.mem_singleton.mpr rfl) rfl rfl
  · exact (reset_token_single_live_invariant.2.2
      (generate_reset_token_ledger [] 1 "tk" 0 1)
      (ReachableResetLedger.issue 1 "tk" 0 1 ReachableResetLedger.init)
      1 0).1
  · exact (reset_token_single_live_invariant.2.2
      (generate_reset_token_ledger [] 1 "tk" 0 1)
      (ReachableResetLedger.issue 1 "tk" 0 1 ReachableResetLedger.init)
      1 0).2

/-- Whether an `Except` value is a success. -/
def exceptOk {ε α : Type} : Except ε α → Bool
  | .ok _ => true
  | .error _ => false

@[simp]
theorem exceptOk_ok {ε α : Type} (a : α) :
    exceptOk (Except.ok a : Except ε α) = true := rfl

@[simp]
theorem exceptOk_error {ε α : Type} (e : ε) :
    exceptOk (Except.error e : Except ε α) = false := rfl

/-- The validity rule the token services implement: the token exists in
the ledger, its `used_at` is null, and its expiry has not passed — the
code accepts a token at the exact instant `now = expires_at`, rejecting
only `expires_at < now`. -/
def tokenLedgerValid (l : List TokenRec) (tok : String) (now : Nat) : Bool :=
  match l.find? (fun t => t.token == tok) with
  | none => false
  | some t => ! decide (t.expires_at < now) && ! t.used_at.isSome

/-- Foreign-key invariant of the schema: every token references an
existing user. -/
def tokensHaveUsers (tokens : List TokenRec) (users : List User) : Prop :=
  ∀ t ∈ tokens, ∃ u ∈ users, u.id = t.user_id

theorem find?_markTokenUsed (l : List TokenRec) (tok : String) (now : Nat)
    (t : TokenRec) (h : l.find? (fun x => x.token == tok) = some t) :
    (markTokenUsed l tok now).find? (fun x => x.token == tok) =
      some { t with used_at := some now } := by
  induction l with
  | nil => simp at h
  | cons a as ih =>
    simp only [markTokenUsed]
    by_cases ha : (a.token == tok) = true
    · rw [if_pos ha]
      have hh : List.find? (fun x => x.token == tok) (a :: as) = some a :=
        List.find?_cons_of_pos as ha
      rw [hh] at h
      injection h with h
      subst h
      have hgoal : List.find? (fun x => x.token == tok)
          (({ a with used_at := some now } : TokenRec) :: as) =
          some ({ a with used_at := some now } : TokenRec) :=
        List.find?_cons_of_pos as ha
      rw [hgoal]
    · rw [if_neg ha]
      have hh : List.find? (fun x => x.token == tok) (a :: as) =
          List.find? (fun x => x.token == tok) as :=
        List.find?_cons_of_neg as ha
      have hgoal : List.find? (fun x => x.token == tok)
          (a :: markTokenUsed as tok now) =
          List.find? (fun x => x.token == tok) (markTokenUsed as tok now) :=
        List.find?_cons_of_neg _ ha
      rw [hh] at h
      rw [hgoal]
      exact ih h

theorem users_find_isSome (users : List User) (uid : Nat)
    (h : ∃ u ∈ users, u.id = uid) :
    (users.find? (fun u => u.id == uid)).isSome := by
  apply List.find?_isSome.mpr
  obtain ⟨u, hu, hid⟩ := h
  exact ⟨u, hu, beq_iff_eq.mpr hid⟩

/-- C3 (amended): consumption of a verification or reset token succeeds
exactly when the token exists, is unused, and its expiry has not passed
(`¬ expires_at < now`, so the token is still accepted at the instant
`now = expires_at`); a successful consumption marks the token used, so
every later consumption of the same token fails with the service's
invalid-token error, and an expired token always fails even if
unused. -/
theorem token_consume_single_use :
    (∀ (db : DB) (tok : String) (now : Nat),
        tokensHaveUsers db.verification_tokens db.users →
        exceptOk (verify_email_token db tok now) =
          tokenLedgerValid db.verification_tokens tok now)
    ∧ (∀ (hash : String → String) (db : DB) (tok pw : String) (now : Nat),
        tokensHaveUsers db.reset_tokens db.users →
        exceptOk (reset_password hash db tok pw now) =
          tokenLedgerValid db.reset_tokens tok now)
    ∧ (∀ (db : DB) (tok : String) (now : Nat),
        exceptOk (verify_reset_token db tok now) =
          tokenLedgerValid db.reset_tokens tok now)
    ∧ (∀ (db : DB) (tok : String) (now : Nat) (u : User) (db' : DB),
        verify_email_token db tok now = .ok (u, db') →
        ∀ now2 : Nat, verify_email_token db' tok now2 =
          .error .verificationTokenError)
    ∧ (∀ (hash : String → String) (db : DB) (tok pw : String) (now : Nat)
        (u : User) (db' : DB),
        reset_password hash db tok pw now = .ok (u, db') →
        ∀ (hash2 : String → String) (pw2 : String) (now2 : Nat),
          reset_password hash2 db' tok pw2 now2 =
            .error .invalidResetTokenError)
    ∧ (∀ (db : DB) (tok : String) (now : Nat) (t : TokenRec),
        db.verification_tokens.find? (fun x => x.token == tok) = some t →
        t.expires_at < now →
        verify_email_token db tok now = .error .verificationTokenError)
    ∧ (∀ (hash : String → String) (db : DB) (tok pw : String) (now : Nat)
        (t : TokenRec),
        db.reset_tokens.find? (fun x => x.token == tok) = some t →
        t.expires_at < now →
        reset_password hash db tok pw now = .error .invalidResetTokenError) := by
  refine ⟨?_, ?_, ?_, ?_, ?_, ?_, ?_⟩
  · intro db tok now hfk
    unfold verify_email_token tokenLedgerValid
    cases hf : db.verification_tokens.find? (fun t => t.token == tok) with
    | none => rfl
    | some vt =>
      by_cases hexp : vt.expires_at < now
      · simp [hexp]
      · by_cases hused : vt.used_at.isSome
        · simp [hexp, hused]
        · have hex := hfk vt (List.mem_of_find?_eq_some hf)
          have hsome := users_find_isSome db.users vt.user_id hex
          cases hfu : db.users.find? (fun u => u.id == vt.user_id) with
          | none => rw [hfu] at hsome; simp at hsome
          | some u => simp [hexp, hused, hfu]
  · intro hash db tok pw now hfk
    unfold reset_password verify_reset_token tokenLedgerValid
    cases hf : db.reset_tokens.find? (fun t => t.token == tok) with
    | none => rfl
    | some rt =>
      by_cases hexp : rt.expires_at < now
      · simp [hexp]
      · by_cases hused : rt.used_at.isSome
        · simp [hexp, hused]
        · have hex := hfk rt (List.mem_of_find?_eq_some hf)
          have hsome := users_find_isSome db.users rt.user_id hex
          cases hfu : db.users.find? (fun u => u.id == rt.user_id) with
          | none => rw [hfu] at hsome; simp at hsome
          | some u => simp [hexp, hused, hfu]
  · intro db tok now
    unfold verify_reset_token tokenLedgerValid
    cases hf : db.reset_tokens.find? (fun t => t.token == tok) with
    | none => rfl
    | some rt =>
      by_cases hexp : rt.expires_at < now
      · simp [hexp]
      · by_cases hused : rt.used_at.isSome
        · simp [hexp, hused]
        · simp [hexp, hused]
  · intro db tok now u db' hok now2
    unfold verify_email_token at hok
    split at hok
    · simp at hok
    next vt hf =>
      split at hok
      · simp at hok
      · split at hok
        · simp at hok
        · split at hok
          · simp at hok
          next usr hfu =>
            have hpair := Except.ok.inj hok
            have hdb' : db'.verification_tokens =
                markTokenUsed db.verification_tokens tok now := by
              have h2 := congrArg
                (fun p : User × DB => p.2.verification_tokens) hpair
              simpa using h2.symm
            unfold verify_email_token
            rw [hdb', find?_markTokenUsed _ _ _ _ hf]
            by_cases hexp2 : vt.expires_at < now2
            · simp [hexp2]
            · simp [hexp2]
  · intro hash db tok pw now u db' hok hash2 pw2 now2
    unfold reset_password at hok
    split at hok
    · simp at hok
    next rt hv =>
      split at hok
      · simp at hok
      next usr hfu =>
        have hpair := Except.ok.inj hok
        have hdb' : db'.reset_tokens =
            markTokenUsed db.reset_tokens tok now := by
          have h2 := congrArg (fun p : User × DB => p.2.reset_tokens) hpair
          simpa using h2.symm
        have hf : db.reset_tokens.find? (fun t => t.token == tok) = some rt := by
          unfold verify_reset_token at hv
          split at hv
          · simp at hv
          next rt2 hf2 =>
            split at hv
            · simp at hv
            · split at hv
              · simp at hv
              · injection hv with hv
                subst hv
                exact hf2
        have hv2 : verify_reset_token db' tok now2 =
            .error .invalidResetTokenError := by
          unfold verify_reset_token
          rw [hdb', find?_markTokenUsed _ _ _ _ hf]
          by_cases hexp2 : rt.expires_at < now2
          · simp [hexp2]
          · simp [hexp2]
        unfold reset_password
        rw [hv2]
  · intro db tok now t hf hexp
    unfold verify_email_token
    rw [hf]
    simp [hexp]
  · intro hash db tok pw now t hf hexp
    unfold reset_password verify_reset_token
    rw [hf]
    simp [hexp]

/-- A user with an unused token whose `expires_at` equals the probe
instant. -/
def boundaryUser : User :=
  { id := 1, username := "alice", email := "alice@example.com",
    password := "h", is_verified := false }

def boundaryToken : TokenRec :=
  { user_id := 1, token := "tk", expires_at := 5, used_at := none }

def boundaryDB : DB :=
  { users := [boundaryUser], sessions := [], threads := [], messages := [],
    verification_tokens := [boundaryToken], reset_tokens := [boundaryToken] }

/-- C3 counterexample: at the very instant `now = expires_at` — when the
current time is not strictly before the expiry — both consumption paths
still succeed, because the code only rejects `expires_at < now`. -/
theorem token_strict_expiry_counterexample :
    exceptOk (verify_email_token boundaryDB "tk" 5) = true ∧
    exceptOk (verify_reset_token boundaryDB "tk" 5) = true ∧
    ¬ (5 : Nat) < 5 := by
  refine ⟨rfl, rfl, by decide⟩

def boundaryUserVerified : User := { boundaryUser with is_verified := true }

/-- State of `boundaryDB` after consuming the verification token at
time 3. -/
def boundaryDBAfter : DB :=
  { users := [boundaryUserVerified], sessions := [], threads := [],
    messages := [],
    verification_tokens :=
      [{ user_id := 1, token := "tk", expires_at := 5, used_at := some 3 }],
    reset_tokens := [boundaryToken] }

/-- Closed instance of `token_consume_single_use`: on `boundaryDB` the
success of consumption coincides with ledger validity, and re-consuming
the already-consumed token fails. -/
theorem token_consume_single_use_witness :
    (exceptOk (verify_email_token boundaryDB "tk" 0) =
      tokenLedgerValid boundaryDB.verification_tokens "tk" 0) ∧
    verify_email_token boundaryDBAfter "tk" 4 =
      .error .verificationTokenError := by
  constructor
  · exact token_consume_single_use.1 boundaryDB "tk" 0
      (by unfold tokensHaveUsers; decide)
  · exact token_consume_single_use.2.2.2.1 boundaryDB "tk" 3
      boundaryUserVerified boundaryDBAfter rfl 4

/-- A database owning a single registered and verified user. -/
def enumDBWith : DB :=
  { users := [{ id := 1, username := "alice", email := "alice@example.com",
                password := "h", is_verified := true }],
    sessions := [], threads := [], messages := [],
    verification_tokens := [], reset_tokens := [] }

/-- The same database without that user. -/
def enumDBWithout : DB := emptyDB

/-- C2 counterexample: two runs of resend-verification that differ only
in whether `alice@example.com` belongs to a registered (verified) user.
The unregistered run is success-shaped, the registered run is an error —
the response shape reveals that the account exists and is verified. -/
theorem resend_uniformity_counterexample :
    (resend_verification_email true enumDBWithout "alice@example.com"
        "tk" 0 24).1 = .success ∧
    (resend_verification_email true enumDBWith "alice@example.com"
        "tk" 0 24).1 = .failure 500 := by
  refine ⟨rfl, rfl⟩

/-- C2 (amended): with a working mailer, forgot-password is
success-shaped for every database and email; resend-verification is
success-shaped exactly when the email is unregistered or belongs to a
not-yet-verified user, and an error for an already-verified user —
revealing, in that one case, that the account exists. -/
theorem enumeration_uniformity_amended :
    (∀ (db : DB) (email tok : String) (now expireH : Nat),
        (forgot_password true db email tok now expireH).1 = .success)
    ∧ (∀ (db : DB) (email tok : String) (now expireH : Nat),
        (resend_verification_email true db email tok now expireH).1 =
            .success ↔
          (match db.users.find? (fun u => u.email == email) with
           | some u => u.is_verified = false
           | none => True)) := by
  constructor
  · intro db email tok now expireH
    unfold forgot_password
    cases hf : db.users.find? (fun u => u.email == email) with
    | none => rfl
    | some u => rfl
  · intro db email tok now expireH
    unfold resend_verification_email
    cases hf : db.users.find? (fun u => u.email == email) with
    | none => simp
    | some u =>
      by_cases hv : u.is_verified
      · simp [hv]
      · simp [hv]

def exUserA : User :=
  { id := 1, username := "alice", email := "alice@example.com",
    password := "h", is_verified := true }

def exUserB : User :=
  { id := 2, username := "bob", email := "bob@example.com",
    password := "h", is_verified := true }

def exSessionA : UserSession :=
  { id := 1, user_id := 1, agent_type := none, created_at := 0 }

def exThreadA : Thread :=
  { id := 1, session_id := 1, title := some "private", created_at := 0 }

def exMsgA : Message :=
  { id := 1, thread_id := 1, role := "user", content := "secret",
    created_at := 0 }

/-- A database where thread 1 (with one message) belongs to session 1
owned by user 1, and user 2 is another registered user. -/
def exDbOwner : DB :=
  { users := [exUserA, exUserB], sessions := [exSessionA],
    threads := [exThreadA], messages := [exMsgA],
    verification_tokens := [], reset_tokens := [] }

/-- C1: the `GET /messages/{thread_id}` handler returns thread 1's
message history to authenticated user 2 even though the thread belongs
to user 1, while the service-layer ownership check — which the other
thread endpoints call — would have denied the access.  The handler never
compares `thread.session.user_id` with the requesting user. -/
theorem get_thread_history_cross_user_leak :
    exSessionA.user_id = 1 ∧
    exThreadA.session_id = exSessionA.id ∧
    (2 : Nat) ≠ 1 ∧
    get_thread_history exDbOwner 1 2 = .ok [exMsgA] ∧
    verify_thread_ownership exDbOwner 1 2 = .error .threadAccessDenied := by
  refine ⟨rfl, rfl, by decide, rfl, rfl⟩

/-- No two users share a username or an email. -/
def usersUnique (users : List User) : Prop :=
  users.Pairwise (fun a b => a.username ≠ b.username ∧ a.email ≠ b.email)

/-- One registration attempt: commit outcome and the posted fields. -/
structure RegRequest where
  commitOk : Bool
  username : String
  email : String
  password : String
  newId : Nat

/-- A sequence of registration attempts applied to the store. -/
def registerAll (hash : String → String) (reqs : List RegRequest)
    (db : DB) : DB :=
  reqs.foldl
    (fun db r =>
      (register_user hash r.commitOk db r.username r.email r.password
        r.newId).2) db

theorem usersUnique_register (hash : String → String) (ok : Bool) (db : DB)
    (username email pw : String) (newId : Nat) (h : usersUnique db.users) :
    usersUnique
      ((register_user hash ok db username email pw newId).2).users := by
  unfold register_user
  cases h1 : db.users.find? (fun u => u.username == username) with
  | some u => exact h
  | none =>
    cases h2 : db.users.find? (fun u => u.email == email) with
    | some u => exact h
    | none =>
      cases ok with
      | false => exact h
      | true =>
        unfold usersUnique at *
        show List.Pairwise
          (fun a b => a.username ≠ b.username ∧ a.email ≠ b.email)
          (db.users ++
            [{ id := newId, username := username, email := email,
               password := hash pw, is_verified := false }])
        rw [List.pairwise_append]
        refine ⟨h, List.pairwise_singleton _ _, ?_⟩
        intro a ha b hb
        rw [List.mem_singleton] at hb
        subst hb
        have hu := List.find?_eq_none.mp h1 a ha
        have he := List.find?_eq_none.mp h2 a ha
        constructor
        · intro hc
          exact hu (beq_iff_eq.mpr hc)
        · intro hc
          exact he (beq_iff_eq.mpr hc)

theorem usersUnique_registerAll (hash : String → String)
    (reqs : List RegRequest) :
    ∀ db : DB, usersUnique db.users →
      usersUnique (registerAll hash reqs db).users := by
  induction reqs with
  | nil => intro db h; exact h
  | cons r rs ih =>
    intro db h
    unfold registerAll at *
    rw [List.foldl_cons]
    exact ih _ (usersUnique_register _ _ _ _ _ _ _ h)

/-- C5: registration preserves username/email uniqueness, any sequence
of registrations starting from an empty directory yields a directory
with no two users sharing a username or an email, and a registration
whose username or email exactly matches an existing user fails with
`UserAlreadyExistsError` leaving the store unchanged. -/
theorem registration_uniqueness :
    (∀ (hash : String → String) (ok : Bool) (db : DB)
        (username email pw : String) (newId : Nat),
        usersUnique db.users →
        usersUnique
          ((register_user hash ok db username email pw newId).2).users)
    ∧ (∀ (hash : String → String) (ok : Bool) (db : DB)
        (username email pw : String) (newId : Nat) (u : User),
        u ∈ db.users → (u.username = username ∨ u.email = email) →
        (register_user hash ok db username email pw newId).1 =
            .error .userAlreadyExists ∧
        (register_user hash ok db username email pw newId).2 = db)
    ∧ (∀ (hash : String → String) (reqs : List RegRequest),
        usersUnique (registerAll hash reqs emptyDB).users) := by
  refine ⟨usersUnique_register, ?_, ?_⟩
  · intro hash ok db username email pw newId u hmem hor
    unfold register_user
    cases h1 : db.users.find? (fun x => x.username == username) with
    | some v => exact ⟨rfl, rfl⟩
    | none =>
      cases hor with
      | inl hc =>
        exact absurd (beq_iff_eq.mpr hc) (List.find?_eq_none.mp h1 u hmem)
      | inr hc =>
        have hsome : (db.users.find? (fun x => x.email == email)).isSome :=
          List.find?_isSome.mpr ⟨u, hmem, beq_iff_eq.mpr hc⟩
        cases h2 : db.users.find? (fun x => x.email == email) with
        | none => rw [h2] at hsome; simp at hsome
        | some v => exact ⟨rfl, rfl⟩
  · intro hash reqs
    exact usersUnique_registerAll hash reqs emptyDB List.Pairwise.nil

/-- Closed instance of `registration_uniqueness`: re-registering the
username `alice` fails and leaves the store unchanged. -/
theorem registration_uniqueness_witness :
    (register_user (fun p => p) true exDbOwner "alice" "x@y.com" "pw" 7).1 =
      .error .userAlreadyExists ∧
    (register_user (fun p => p) true exDbOwner "alice" "x@y.com" "pw" 7).2 =
      exDbOwner :=
  registration_uniqueness.2.1 (fun p => p) true exDbOwner "alice"
    "x@y.com" "pw" 7 exUserA (by unfold exDbOwner; simp)
    (Or.inl rfl)

/-- Whether an authentication outcome is the `InvalidCredentialsError`. -/
def isInvalidCredentials : Except UserServiceError User → Bool
  | .error .invalidCredentials => true
  | _ => false

/-- C6: authentication fails with `InvalidCredentialsError` — the one
error class for all three causes — exactly when the user is absent, the
password does not verify, or verification is required and the user is
unverified; it returns the stored user record exactly when every
applicable check passes. -/
theorem authenticate_invalid_credentials_spec :
    (∀ (verify : String → String → Bool) (req : Bool) (db : DB)
        (username pw : String),
        isInvalidCredentials (authenticate_user verify req db username pw) =
            true ↔
          (match db.users.find? (fun u => u.username == username) with
           | none => True
           | some u => verify pw u.password = false ∨
               (req = true ∧ u.is_verified = false)))
    ∧ (∀ (verify : String → String → Bool) (req : Bool) (db : DB)
        (username pw : String) (u : User),
        authenticate_user verify req db username pw = .ok u →
        db.users.find? (fun x => x.username == username) = some u ∧
        verify pw u.password = true ∧
        (req = true → u.is_verified = true)) := by
  constructor
  · intro verify req db username pw
    unfold authenticate_user
    cases hf : db.users.find? (fun u => u.username == username) with
    | none => simp [isInvalidCredentials]
    | some u =>
      cases hv : verify pw u.password with
      | false => simp [isInvalidCredentials, hv]
      | true =>
        cases hreq : req with
        | false => simp [isInvalidCredentials, hv, hreq]
        | true =>
          cases hver : u.is_verified with
          | false => simp [isInvalidCredentials, hv, hreq, hver]
          | true => simp [isInvalidCredentials, hv, hreq, hver]
  · intro verify req db username pw u hok
    unfold authenticate_user at hok
    split at hok
    · simp at hok
    next u0 hf =>
      split at hok
      · simp at hok
      next hvneg =>
        split at hok
        · simp at hok
        next hrneg =>
          injection hok with hok
          subst hok
          refine ⟨hf, ?_, ?_⟩
          · cases hvb : verify pw u0.password with
            | true => rfl
            | false => exact absurd (by rw [hvb]; rfl) hvneg
          · intro hreq
            cases hver : u0.is_verified with
            | true => rfl
            | false => exact absurd (by rw [hreq, hver]; rfl) hrneg

/-- Closed instance of `authenticate_invalid_credentials_spec`: the
successful login of `alice` implies her record was found and her
password verified. -/
theorem authenticate_invalid_credentials_spec_witness :
    exDbOwner.users.find? (fun x => x.username == "alice") = some exUserA ∧
    (fun p h => p == h) "h" exUserA.password = true ∧
    ((false : Bool) = true → exUserA.is_verified = true) :=
  authenticate_invalid_credentials_spec.2 (fun p h => p == h) false
    exDbOwner "alice" "h" exUserA rfl

theorem register_user_success_eq (hash : String → String) (db : DB)
    (username email pw : String) (newId : Nat)
    (h1 : db.users.find? (fun u => u.username == username) = none)
    (h2 : db.users.find? (fun u => u.email == email) = none) :
    register_user hash true db username email pw newId =
      (Except.ok ({ id := newId, username := username, email := email,
                    password := hash pw, is_verified := false } : User),
       { db with users := db.users ++
           [{ id := newId, username := username, email := email,
              password := hash pw, is_verified := false }] }) := by
  simp [register_user, h1, h2]

/-- C10: when both existence checks pass but the commit itself raises an
integrity error, `register_user` rolls back and reports
`UserAlreadyExistsError` with the store unchanged; in general a
registration either appends exactly the one new user or returns an
error leaving the user directory untouched. -/
theorem register_commit_failure_rollback :
    (∀ (hash : String → String) (db : DB) (username email pw : String)
        (newId : Nat),
        db.users.find? (fun u => u.username == username) = none →
        db.users.find? (fun u => u.email == email) = none →
        (register_user hash false db username email pw newId).1 =
            .error .userAlreadyExists ∧
        (register_user hash false db username email pw newId).2 = db)
    ∧ (∀ (hash : String → String) (ok : Bool) (db : DB)
        (username email pw : String) (newId : Nat),
        (∀ u : User,
            (register_user hash ok db username email pw newId).1 = .ok u →
            ((register_user hash ok db username email pw newId).2).users =
              db.users ++ [u]) ∧
        (∀ e : UserServiceError,
            (register_user hash ok db username email pw newId).1 =
              .error e →
            (register_user hash ok db username email pw newId).2 = db)) := by
  constructor
  · intro hash db username email pw newId h1 h2
    unfold register_user
    rw [h1, h2]
    exact ⟨rfl, rfl⟩
  · intro hash ok db username email pw newId
    cases h1 : db.users.find? (fun u => u.username == username) with
    | some v =>
      refine ⟨fun u hu => ?_, fun e _ => ?_⟩
      · simp [register_user, h1] at hu
      · simp [register_user, h1]
    | none =>
      cases h2 : db.users.find? (fun u => u.email == email) with
      | some v =>
        refine ⟨fun u hu => ?_, fun e _ => ?_⟩
        · simp [register_user, h1, h2] at hu
        · simp [register_user, h1, h2]
      | none =>
        cases ok with
        | false =>
          refine ⟨fun u hu => ?_, fun e _ => ?_⟩
          · simp [register_user, h1, h2] at hu
          · simp [register_user, h1, h2]
        | true =>
          have heq := register_user_success_eq hash db username email pw
            newId h1 h2
          refine ⟨fun u hu => ?_, fun e he => ?_⟩
          · rw [heq] at hu ⊢
            simp only [] at hu
            injection hu with hu
            subst hu
            rfl
          · rw [heq] at he
            simp at he

/-- Closed instance of `register_commit_failure_rollback`: a failing
commit on the empty store reports the duplicate-user error and leaves
the store empty. -/
theorem register_commit_failure_rollback_witness :
    (register_user (fun p => p) false emptyDB "alice" "a@x.com" "pw" 1).1 =
      .error .userAlreadyExists ∧
    (register_user (fun p => p) false emptyDB "alice" "a@x.com" "pw" 1).2 =
      emptyDB :=
  register_commit_failure_rollback.1 (fun p => p) emptyDB "alice"
    "a@x.com" "pw" 1 rfl rfl

/-- C7: every message listing is sorted chronologically (non-decreasing
`created_at`), session and thread listings are sorted newest-first
(non-increasing `created_at`), and each listing is a permutation of the
rows selected by its `WHERE` clause. -/
theorem listing_order_spec :
    (∀ (db : DB) (thread_id : Nat),
        List.Sorted messageAscOrder (get_messages_for_thread db thread_id) ∧
        List.Perm (get_messages_for_thread db thread_id)
          (db.messages.filter (fun m => m.thread_id == thread_id)))
    ∧ (∀ (db : DB) (user_id : Nat),
        List.Sorted sessionDescOrder (list_sessions_for_user db user_id) ∧
        List.Perm (list_sessions_for_user db user_id)
          (db.sessions.filter (fun s => s.user_id == user_id)))
    ∧ (∀ (db : DB) (session_id : Nat),
        List.Sorted threadDescOrder (list_threads_for_session db session_id) ∧
        List.Perm (list_threads_for_session db session_id)
          (db.threads.filter (fun t => t.session_id == session_id))) := by
  refine ⟨fun db k => ⟨?_, ?_⟩, fun db k => ⟨?_, ?_⟩, fun db k => ⟨?_, ?_⟩⟩
  · exact List.sorted_insertionSort messageAscOrder _
  · exact List.perm_insertionSort messageAscOrder _
  · exact List.sorted_insertionSort sessionDescOrder _
  · exact List.perm_insertionSort sessionDescOrder _
  · exact List.sorted_insertionSort threadDescOrder _
  · exact List.perm_insertionSort threadDescOrder _

/-- The last `n` entries of a list. -/
def lastN {α : Type} (l : List α) (n : Nat) : List α := l.drop (l.length - n)

/-- C8 counterexample: with one stored message and `limit = 0` the
conversation context is the full mapped history — Python's
`messages[-0:]` slice is the whole list — not the empty context that the
last-`min(limit, |M|)`-entries reading demands. -/
theorem conversation_context_zero_counterexample :
    get_conversation_context exDbOwner 1 (some 0) =
      [{ role := "user", content := "secret" }] ∧
    get_conversation_context exDbOwner 1 (some 0) ≠ [] := by
  refine ⟨rfl, by decide⟩

/-- C8 (amended): without a limit the context is the whole chronological
history mapped to role/content pairs; for a limit of at least 1 it is
the last `min(limit, |M|)` entries so mapped; for `limit = 0` the code
returns the whole history, not the empty context. -/
theorem conversation_context_spec :
    (∀ (db : DB) (thread_id : Nat),
        get_conversation_context db thread_id none =
          (get_messages_for_thread db thread_id).map
            (fun m => { role := m.role, content := m.content }))
    ∧ (∀ (db : DB) (thread_id limit : Nat), 1 ≤ limit →
        get_conversation_context db thread_id (some limit) =
          (lastN (get_messages_for_thread db thread_id)
            (min limit (get_messages_for_thread db thread_id).length)).map
            (fun m => { role := m.role, content := m.content }))
    ∧ (∀ (db : DB) (thread_id : Nat),
        get_conversation_context db thread_id (some 0) =
          (get_messages_for_thread db thread_id).map
            (fun m => { role := m.role, content := m.content })) := by
  refine ⟨fun db tid => rfl, ?_, ?_⟩
  · intro db tid limit hlim
    simp only [get_conversation_context, lastN]
    by_cases hlen : (get_messages_for_thread db tid).length > limit
    · rw [if_pos hlen]
      have hz : (limit == 0) = false :=
        beq_eq_false_iff_ne.mpr (by omega)
      rw [hz, if_neg Bool.false_ne_true]
      rw [Nat.min_eq_left (Nat.le_of_lt hlen)]
    · rw [if_neg hlen]
      have hmin : min limit (get_messages_for_thread db tid).length =
          (get_messages_for_thread db tid).length :=
        Nat.min_eq_right (by omega)
      rw [hmin, Nat.sub_self, List.drop_zero]
  · intro db tid
    simp only [get_conversation_context]
    by_cases hlen : (get_messages_for_thread db tid).length > 0
    · rw [if_pos hlen]
      rfl
    · rw [if_neg hlen]

/-- Closed instance of `conversation_context_spec` at `limit = 1` on the
one-message database. -/
theorem conversation_context_spec_witness :
    get_conversation_context exDbOwner 1 (some 1) =
      (lastN (get_messages_for_thread exDbOwner 1)
        (min 1 (get_messages_for_thread exDbOwner 1).length)).map
        (fun m => { role := m.role, content := m.content }) :=
  conversation_context_spec.2.1 exDbOwner 1 1 (Nat.le_refl 1)

/-- C9 counterexample: when the external title generator returns the
empty string, the cleaned title is empty, is not longer than 50
characters, and is returned as the thread name — an empty name, which
the claim's non-emptiness forbids. -/
theorem generate_thread_name_empty_counterexample :
    generate_thread_name (some []) ("hi".data) = [] := rfl

/-- C9 (amended): the thread name never exceeds 50 characters; a cleaned
title longer than 50 is cut to its first 30 characters plus three dots;
on generation failure the five-word fallback is cut to 47 characters
plus three dots when longer than 50, is replaced by the default name
when empty, and the failure path always yields a non-empty name — but
the success path returns the cleaned title as is, which may be empty. -/
theorem generate_thread_name_spec :
    (∀ (llm : Option (List Char)) (msg : List Char),
        (generate_thread_name llm msg).length ≤ 50)
    ∧ (∀ msg : List Char, generate_thread_name none msg ≠ [])
    ∧ (∀ (out msg : List Char), (cleanedTitle out).length > 50 →
        generate_thread_name (some out) msg =
          (cleanedTitle out).take 30 ++ dots)
    ∧ (∀ msg : List Char, (fallbackJoined msg).length > 50 →
        generate_thread_name none msg = (fallbackJoined msg).take 47 ++ dots)
    ∧ (∀ msg : List Char, fallbackJoined msg = [] →
        generate_thread_name none msg = newConversationName) := by
  have hdots : dots.length = 3 := rfl
  refine ⟨?_, ?_, ?_, ?_, ?_⟩
  · intro llm msg
    cases llm with
    | some out =>
      simp only [generate_thread_name]
      by_cases h50 : (cleanedTitle out).length > 50
      · rw [if_pos h50, List.length_append, List.length_take]
        have h1 : min 30 (cleanedTitle out).length ≤ 30 := Nat.min_le_left _ _
        omega
      · rw [if_neg h50]
        omega
    | none =>
      simp only [generate_thread_name]
      by_cases h50 : (fallbackJoined msg).length > 50
      · rw [if_pos h50]
        split
        · exact (by decide : newConversationName.length ≤ 50)
        · rw [List.length_append, List.length_take]
          have h1 : min 47 (fallbackJoined msg).length ≤ 47 :=
            Nat.min_le_left _ _
          omega
      · rw [if_neg h50]
        split
        · exact (by decide : newConversationName.length ≤ 50)
        · omega
  · intro msg
    simp only [generate_thread_name]
    by_cases h50 : (fallbackJoined msg).length > 50
    · rw [if_pos h50]
      split
      · exact (by decide : newConversationName ≠ [])
      next hne => exact fun hc => hne (by rw [hc]; rfl)
    · rw [if_neg h50]
      split
      · exact (by decide : newConversationName ≠ [])
      next hne => exact fun hc => hne (by rw [hc]; rfl)
  · intro out msg h
    simp only [generate_thread_name]
    rw [if_pos h]
  · intro msg h
    simp only [generate_thread_name]
    rw [if_pos h]
    have hne : ((fallbackJoined msg).take 47 ++ dots).isEmpty ≠ true := by
      intro hc
      have hnil := List.isEmpty_iff.mp hc
      simp [dots] at hnil
    rw [if_neg hne]
  · intro msg h
    simp [generate_thread_name, h]

/-- Closed instance of `generate_thread_name_spec`: a 60-character
generated title is truncated to its first 30 characters plus dots. -/
theorem generate_thread_name_spec_witness :
    generate_thread_name (some (List.replicate 60 'a')) [] =
      (cleanedTitle (List.replicate 60 'a')).take 30 ++ dots :=
  generate_thread_name_spec.2.2.1 (List.replicate 60 'a') [] (by decide)

end LMA
